import Mathlib

/-!
Verification of the security-policy core of the antx repository.

The definitions below are shallow embeddings of the TypeScript source:
  - sanitizeHtml, isValidEmail, validatePassword, checkRateLimit from
    src/lib/security.ts (src/unnamed/part_006),
  - mapErrorMessage from src/lib/error-messages.ts (src/unnamed/part_005),
  - onRequest (the request-gate middleware) from src/middleware/auth.ts
    (src/unnamed/part_007, the security-header version).
JavaScript strings are modelled as Lean String (a list of characters);
numbers (timestamps, counters) as Nat.  Characters that the surrounding
tooling treats specially (apostrophe, double quote, backslash, backtick,
braces) are written with Char.ofNat and their decimal code.
-/

/-- Apostrophe character, code 39. -/
def apoC : Char := Char.ofNat 39

/-- Double-quote character, code 34. -/
def quotC : Char := Char.ofNat 34

/-- Backslash character, code 92. -/
def backslashC : Char := Char.ofNat 92

/-- Backtick character, code 96. -/
def backtC : Char := Char.ofNat 96

/-- Left curly brace, code 123. -/
def lbraceC : Char := Char.ofNat 123

/-- Right curly brace, code 125. -/
def rbraceC : Char := Char.ofNat 125

/-!
## Sanitizer (sanitizeHtml)

Source:
  return input
    .replace(&amp-regex, amp-entity)
    .replace(lt-regex, lt-entity)
    .replace(gt-regex, gt-entity)
    .replace(quot-regex, quot-entity)
    .replace(apos-regex, apos-entity)

Each call replaces every occurrence of a single character by a fixed
replacement string, left to right, without rescanning the replacement
(JavaScript String.replace with a global single-character regex).
-/

/-- One global single-character replace pass, as JavaScript
String.replace(target-regex-with-g-flag, rep) for a one-character pattern. -/
def replaceCharAll (target : Char) (rep : List Char) : List Char → List Char
  | [] => []
  | c :: rest =>
    if c = target then rep ++ replaceCharAll target rep rest
    else c :: replaceCharAll target rep rest

/-- The five entity replacement strings of the source, spelled as
character lists: amp, lt, gt, quot and the numeric apostrophe entity. -/
def ampEsc : List Char := ['&', 'a', 'm', 'p', ';']

/-- Entity for the less-than sign. -/
def ltEsc : List Char := ['&', 'l', 't', ';']

/-- Entity for the greater-than sign. -/
def gtEsc : List Char := ['&', 'g', 't', ';']

/-- Entity for the double quote. -/
def quotEsc : List Char := ['&', 'q', 'u', 'o', 't', ';']

/-- Entity for the apostrophe. -/
def aposEsc : List Char := ['&', '#', '0', '3', '9', ';']

/-- The chained five replace passes of sanitizeHtml, on character lists.
Innermost pass is the ampersand pass, matching the source order. -/
def sanitizeList (l : List Char) : List Char :=
  replaceCharAll apoC aposEsc
    (replaceCharAll quotC quotEsc
      (replaceCharAll '>' gtEsc
        (replaceCharAll '<' ltEsc
          (replaceCharAll '&' ampEsc l))))

/-- sanitizeHtml from src/lib/security.ts. -/
def sanitizeHtml (input : String) : String := ⟨sanitizeList input.data⟩

/-- Character-wise escape function; the chained passes of sanitizeHtml
are proved below to coincide with mapping this over the input. -/
def escapeChar (c : Char) : List Char :=
  if c = '&' then ampEsc
  else if c = '<' then ltEsc
  else if c = '>' then gtEsc
  else if c = quotC then quotEsc
  else if c = apoC then aposEsc
  else [c]

/-- Concatenation of the per-character escapes. -/
def escapeList : List Char → List Char
  | [] => []
  | c :: rest => escapeChar c ++ escapeList rest

theorem replaceCharAll_cons (target : Char) (rep : List Char) (c : Char) (l : List Char) :
    replaceCharAll target rep (c :: l) =
      (if c = target then rep else [c]) ++ replaceCharAll target rep l := by
  by_cases h : c = target <;> simp [replaceCharAll, h]

theorem replaceCharAll_append (target : Char) (rep : List Char) (a b : List Char) :
    replaceCharAll target rep (a ++ b) =
      replaceCharAll target rep a ++ replaceCharAll target rep b := by
  induction a with
  | nil => rfl
  | cons c a ih => by_cases h : c = target <;> simp [replaceCharAll, h, ih]

theorem sanitizeList_cons (c : Char) (l : List Char) :
    sanitizeList (c :: l) = escapeChar c ++ sanitizeList l := by
  unfold sanitizeList
  rw [replaceCharAll_cons '&' ampEsc c l]
  rw [replaceCharAll_append '<', replaceCharAll_append '>',
    replaceCharAll_append quotC, replaceCharAll_append apoC]
  congr 1
  by_cases h1 : c = '&'
  · subst h1; decide
  by_cases h2 : c = '<'
  · subst h2; decide
  by_cases h3 : c = '>'
  · subst h3; decide
  by_cases h4 : c = quotC
  · subst h4; decide
  by_cases h5 : c = apoC
  · subst h5; decide
  simp [replaceCharAll, escapeChar, h1, h2, h3, h4, h5]

theorem sanitizeList_eq_escapeList (l : List Char) : sanitizeList l = escapeList l := by
  induction l with
  | nil => rfl
  | cons c l ih => rw [sanitizeList_cons, ih]; rfl

theorem sanitizeHtml_data (s : String) : (sanitizeHtml s).data = escapeList s.data := by
  simp [sanitizeHtml, sanitizeList_eq_escapeList]

/-- A character the sanitizer must escape. -/
def isSpecialHtml (c : Char) : Bool :=
  (c == '&') || (c == '<') || (c == '>') || (c == quotC) || (c == apoC)

/-- The string contains at least one character the sanitizer escapes. -/
def hasSpecialHtml (s : String) : Bool := s.data.any isSpecialHtml

/-- A character that may appear literally in sanitizer output: anything
except the angle brackets and the two quote characters. -/
def htmlSafeChar (c : Char) : Bool :=
  if c = '<' ∨ c = '>' ∨ c = quotC ∨ c = apoC then false else true

/-- The tails of the five emitted escape sequences, i.e. what must follow
an ampersand in sanitizer output. -/
def escTails : List (List Char) :=
  [['a', 'm', 'p', ';'], ['l', 't', ';'], ['g', 't', ';'],
   ['q', 'u', 'o', 't', ';'], ['#', '0', '3', '9', ';']]

/-- Every ampersand in the list opens one of the five emitted escape
sequences. -/
def ampersandEscaped : List Char → Bool
  | [] => true
  | c :: rest =>
    (if c = '&' then escTails.any (fun t => t.isPrefixOf rest) else true)
      && ampersandEscaped rest

theorem isPrefixOf_self_append (a b : List Char) : a.isPrefixOf (a ++ b) = true := by
  induction a with
  | nil => simp [List.isPrefixOf]
  | cons c a ih => simp [List.isPrefixOf, ih]

theorem ampersandEscaped_escape_append (c : Char) (t : List Char) :
    ampersandEscaped (escapeChar c ++ t) = ampersandEscaped t := by
  by_cases h1 : c = '&'
  · subst h1
    have hc : escapeChar '&' = ampEsc := by decide
    rw [hc]
    show ampersandEscaped ('&' :: (['a', 'm', 'p', ';'] ++ t)) = ampersandEscaped t
    simp [ampersandEscaped, escTails, isPrefixOf_self_append]
  by_cases h2 : c = '<'
  · subst h2
    have hc : escapeChar '<' = ltEsc := by decide
    rw [hc]
    show ampersandEscaped ('&' :: (['l', 't', ';'] ++ t)) = ampersandEscaped t
    simp [ampersandEscaped, escTails, isPrefixOf_self_append]
  by_cases h3 : c = '>'
  · subst h3
    have hc : escapeChar '>' = gtEsc := by decide
    rw [hc]
    show ampersandEscaped ('&' :: (['g', 't', ';'] ++ t)) = ampersandEscaped t
    simp [ampersandEscaped, escTails, isPrefixOf_self_append]
  by_cases h4 : c = quotC
  · subst h4
    have hc : escapeChar quotC = quotEsc := by decide
    rw [hc]
    show ampersandEscaped ('&' :: (['q', 'u', 'o', 't', ';'] ++ t)) = ampersandEscaped t
    simp [ampersandEscaped, escTails, isPrefixOf_self_append]
  by_cases h5 : c = apoC
  · subst h5
    have hc : escapeChar apoC = aposEsc := by decide
    rw [hc]
    show ampersandEscaped ('&' :: (['#', '0', '3', '9', ';'] ++ t)) = ampersandEscaped t
    simp [ampersandEscaped, escTails, isPrefixOf_self_append]
  have hc : escapeChar c = [c] := by simp [escapeChar, h1, h2, h3, h4, h5]
  rw [hc]
  show ampersandEscaped (c :: t) = ampersandEscaped t
  simp [ampersandEscaped, h1]

theorem escapeList_all_safe (l : List Char) : (escapeList l).all htmlSafeChar = true := by
  induction l with
  | nil => rfl
  | cons c l ih =>
    rw [escapeList, List.all_append, ih, Bool.and_true]
    by_cases h1 : c = '&'
    · subst h1; decide
    by_cases h2 : c = '<'
    · subst h2; decide
    by_cases h3 : c = '>'
    · subst h3; decide
    by_cases h4 : c = quotC
    · subst h4; decide
    by_cases h5 : c = apoC
    · subst h5; decide
    simp [escapeChar, htmlSafeChar, h1, h2, h3, h4, h5]

theorem escapeList_ampersandEscaped (l : List Char) :
    ampersandEscaped (escapeList l) = true := by
  induction l with
  | nil => rfl
  | cons c l ih => rw [escapeList, ampersandEscaped_escape_append, ih]

/-- Claim C6: for every input string, sanitizeHtml is total (it is a Lean
function), its output contains no literal angle bracket or quote
character, and every ampersand in the output starts one of the five
emitted escape sequences. -/
theorem sanitizeHtml_output_safe (s : String) :
    (sanitizeHtml s).data.all htmlSafeChar = true ∧
      ampersandEscaped (sanitizeHtml s).data = true := by
  rw [sanitizeHtml_data]
  exact ⟨escapeList_all_safe s.data, escapeList_ampersandEscaped s.data⟩

theorem one_le_escapeChar_length (c : Char) : 1 ≤ (escapeChar c).length := by
  by_cases h1 : c = '&'
  · subst h1; decide
  by_cases h2 : c = '<'
  · subst h2; decide
  by_cases h3 : c = '>'
  · subst h3; decide
  by_cases h4 : c = quotC
  · subst h4; decide
  by_cases h5 : c = apoC
  · subst h5; decide
  simp [escapeChar, h1, h2, h3, h4, h5]

theorem two_le_escapeChar_length (c : Char) (h : isSpecialHtml c = true) :
    2 ≤ (escapeChar c).length := by
  simp only [isSpecialHtml, Bool.or_eq_true, beq_iff_eq] at h
  rcases h with ((((h | h) | h) | h) | h) <;> subst h <;> decide

theorem escapeChar_special_has_special (c : Char) (h : isSpecialHtml c = true) :
    (escapeChar c).any isSpecialHtml = true := by
  simp only [isSpecialHtml, Bool.or_eq_true, beq_iff_eq] at h
  rcases h with ((((h | h) | h) | h) | h) <;> subst h <;> decide

theorem escapeList_length_ge (l : List Char) : l.length ≤ (escapeList l).length := by
  induction l with
  | nil => simp [escapeList]
  | cons c l ih =>
    rw [escapeList, List.length_append]
    have := one_le_escapeChar_length c
    simp only [List.length_cons]
    omega

theorem escapeList_length_gt (l : List Char) (h : l.any isSpecialHtml = true) :
    l.length < (escapeList l).length := by
  induction l with
  | nil => simp at h
  | cons c l ih =>
    rw [escapeList, List.length_append]
    simp only [List.any_cons, Bool.or_eq_true] at h
    simp only [List.length_cons]
    rcases h with h | h
    · have h2 := two_le_escapeChar_length c h
      have h3 := escapeList_length_ge l
      omega
    · have h2 := one_le_escapeChar_length c
      have h3 := ih h
      omega

theorem escapeList_keeps_special (l : List Char) (h : l.any isSpecialHtml = true) :
    (escapeList l).any isSpecialHtml = true := by
  induction l with
  | nil => simp at h
  | cons c l ih =>
    rw [escapeList, List.any_append]
    simp only [List.any_cons, Bool.or_eq_true] at h
    rcases h with h | h
    · rw [escapeChar_special_has_special c h]; rfl
    · rw [ih h, Bool.or_true]

/-- Claim C7: sanitizeHtml is not idempotent. On every string holding at
least one escapable character, a second application changes the result,
and on the one-character ampersand and less-than strings the exact
double-escaped outputs are the amp-amp and amp-lt entities. -/
theorem sanitizeHtml_not_idempotent :
    (∀ s : String, hasSpecialHtml s = true →
      sanitizeHtml (sanitizeHtml s) ≠ sanitizeHtml s) ∧
      sanitizeHtml (sanitizeHtml "&") = "&amp;amp;" ∧
      sanitizeHtml (sanitizeHtml "<") = "&amp;lt;" := by
  refine ⟨?_, by decide, by decide⟩
  intro s h heq
  have hd : (sanitizeHtml (sanitizeHtml s)).data = escapeList (escapeList s.data) := by
    rw [sanitizeHtml_data, sanitizeHtml_data]
  have hd2 : (sanitizeHtml s).data = escapeList s.data := sanitizeHtml_data s
  have hlen : (escapeList (escapeList s.data)).length = (escapeList s.data).length := by
    rw [← hd, ← hd2, heq]
  have hsp : (escapeList s.data).any isSpecialHtml = true :=
    escapeList_keeps_special s.data h
  have := escapeList_length_gt (escapeList s.data) hsp
  omega

/-- Witness for claim C7 at a concrete input containing an ampersand. -/
theorem sanitizeHtml_not_idempotent_witness :
    hasSpecialHtml "a&b" = true ∧
      sanitizeHtml (sanitizeHtml "a&b") ≠ sanitizeHtml "a&b" :=
  ⟨by decide, sanitizeHtml_not_idempotent.1 "a&b" (by decide)⟩

theorem escapeList_id_on_safe (l : List Char)
    (h : l.all (fun c => !(isSpecialHtml c)) = true) : escapeList l = l := by
  induction l with
  | nil => rfl
  | cons c l ih =>
    simp only [List.all_cons, Bool.and_eq_true, Bool.not_eq_true'] at h
    have hc : escapeChar c = [c] := by
      have hs := h.1
      simp only [isSpecialHtml, Bool.or_eq_false_iff, beq_eq_false_iff_ne] at hs
      simp [escapeChar, hs.1.1.1.1, hs.1.1.1.2, hs.1.1.2, hs.1.2, hs.2]
    rw [escapeList, hc, ih h.2]
    rfl

/-- Claim C10: sanitizeHtml is the identity on strings free of the five
escapable characters. -/
theorem sanitizeHtml_id_on_safe (s : String)
    (h : s.data.all (fun c => !(isSpecialHtml c)) = true) : sanitizeHtml s = s := by
  have hl : escapeList s.data = s.data := escapeList_id_on_safe s.data h
  cases s with
  | mk data =>
    show (⟨sanitizeList data⟩ : String) = ⟨data⟩
    rw [sanitizeList_eq_escapeList]
    exact congrArg String.mk hl

/-- Witness for claim C10 at a concrete safe string. -/
theorem sanitizeHtml_id_on_safe_witness : sanitizeHtml "hello world" = "hello world" :=
  sanitizeHtml_id_on_safe "hello world" (by decide)

/-!
## Validators (isValidEmail, validatePassword)

Source: src/lib/security.ts.  The email check is an anchored regular
expression test conjoined with a length bound of 254.  The regular
expression is transcribed into a small regex syntax and matched with
Brzozowski derivatives, which decide anchored language membership, the
semantics of RegExp.test on an anchored pattern.
-/

/-- Regular expression syntax: empty language, empty string, a character
class given by a predicate, concatenation, alternation, Kleene star. -/
inductive RE where
  | fail : RE
  | eps : RE
  | cls (p : Char → Bool) : RE
  | seq (a b : RE) : RE
  | alt (a b : RE) : RE
  | star (a : RE) : RE

/-- Does the regex accept the empty string. -/
def nullable : RE → Bool
  | .fail => false
  | .eps => true
  | .cls _ => false
  | .seq a b => nullable a && nullable b
  | .alt a b => nullable a || nullable b
  | .star _ => true

/-- Smart concatenation collapsing the fail and eps units. -/
def mkSeq : RE → RE → RE
  | .fail, _ => .fail
  | _, .fail => .fail
  | .eps, b => b
  | a, .eps => a
  | a, b => .seq a b

/-- Smart alternation collapsing the fail unit. -/
def mkAlt : RE → RE → RE
  | .fail, b => b
  | a, .fail => a
  | a, b => .alt a b

/-- Brzozowski derivative by one character. -/
def reDeriv (r : RE) (c : Char) : RE :=
  match r with
  | .fail => .fail
  | .eps => .fail
  | .cls p => if p c then .eps else .fail
  | .seq a b =>
    if nullable a then mkAlt (mkSeq (reDeriv a c) b) (reDeriv b c)
    else mkSeq (reDeriv a c) b
  | .alt a b => mkAlt (reDeriv a c) (reDeriv b c)
  | .star a => mkSeq (reDeriv a c) (.star a)

/-- Anchored match: derive by every character and test nullability. -/
def reMatch (r : RE) (l : List Char) : Bool := nullable (l.foldl reDeriv r)

/-- Bounded repetition: zero up to n copies of r, the brace quantifier
with lower bound zero. -/
def reUpTo (n : Nat) (r : RE) : RE :=
  match n with
  | 0 => .eps
  | n + 1 => .alt .eps (.seq r (reUpTo n r))

/-- ASCII letter or digit, the alnum character class of the regex. -/
def alnumB (c : Char) : Bool :=
  (97 ≤ c.toNat && c.toNat ≤ 122) || (65 ≤ c.toNat && c.toNat ≤ 90)
    || (48 ≤ c.toNat && c.toNat ≤ 57)

/-- The punctuation allowed in the local part of the email regex:
dot ! # $ % & apostrophe * + / = ? ^ _ backtick lbrace pipe rbrace ~ - -/
def localSpecialChars : List Char :=
  ['.', '!', '#', '$', '%', '&', apoC, '*', '+', '/', '=', '?', '^', '_',
   backtC, lbraceC, '|', rbraceC, '~', '-']

/-- Character class of the local part of the email regex. -/
def localCharB (c : Char) : Bool := alnumB c || localSpecialChars.contains c

/-- Character class alnum-or-hyphen of the domain label interior. -/
def alnumHyphenB (c : Char) : Bool := alnumB c || c == '-'

/-- One domain label of the email regex: an alnum, optionally followed by
up to 61 alnum-or-hyphen characters and a final alnum. -/
def domainLabelRE : RE :=
  .seq (.cls alnumB) (.alt .eps (.seq (reUpTo 61 (.cls alnumHyphenB)) (.cls alnumB)))

/-- The full anchored email regex of isValidEmail: one or more local
characters, an at sign, a domain label, then any number of dot-label
groups. -/
def emailRE : RE :=
  .seq (.seq (.cls localCharB) (.star (.cls localCharB)))
    (.seq (.cls (fun c => c == '@'))
      (.seq domainLabelRE (.star (.seq (.cls (fun c => c == '.')) domainLabelRE))))

/-- isValidEmail from src/lib/security.ts: the regex test conjoined with
the RFC 5321 length bound of 254. -/
def isValidEmail (email : String) : Bool :=
  reMatch emailRE email.data && decide (email.length ≤ 254)

/-- Claim C8: isValidEmail accepts a normal address and a bare
single-label domain, rejects an empty domain, and rejects every string
longer than 254 characters. -/
theorem isValidEmail_spec :
    isValidEmail "user@example.com" = true ∧
      isValidEmail "user@domain" = true ∧
      isValidEmail "user@" = false ∧
      (∀ e : String, 254 < e.length → isValidEmail e = false) := by
  refine ⟨by decide, by decide, by decide, ?_⟩
  intro e h
  have hlen : decide (e.length ≤ 254) = false := by
    simp [Nat.not_le.mpr h]
  rw [isValidEmail, hlen, Bool.and_false]

/-- Witness for claim C8: the length gate fires on 250 letters followed
by an at sign and a normal domain, a 261-character string. -/
theorem isValidEmail_spec_witness :
    isValidEmail (String.mk (List.replicate 250 'a') ++ "@domain.com") = false :=
  isValidEmail_spec.2.2.2 (String.mk (List.replicate 250 'a') ++ "@domain.com")
    (by
      have h : (String.mk (List.replicate 250 'a') ++ "@domain.com").length = 261 := by
        show (List.replicate 250 'a' ++ "@domain.com".data).length = 261
        rw [List.length_append, List.length_replicate]
        rfl
      rw [h]
      omega)

/-- Result record of validatePassword and validateUsername. -/
structure ValidationResult where
  isValid : Bool
  errors : List String
deriving DecidableEq

/-- The special-character class of the password strength regex:
! at # $ % ^ & * ( ) _ + - = [ ] lbrace rbrace ; apostrophe : quote
backslash pipe , . < > / ? -/
def passwordSpecialChars : List Char :=
  ['!', '@', '#', '$', '%', '^', '&', '*', '(', ')', '_', '+', '-', '=',
   '[', ']', lbraceC, rbraceC, ';', apoC, ':', quotC, backslashC, '|',
   ',', '.', '<', '>', '/', '?']

/-- ASCII lowercasing of one character, as used on the ASCII denylist
comparison (the denylist entries are all ASCII). -/
def asciiLower (c : Char) : Char :=
  if 65 ≤ c.toNat && c.toNat ≤ 90 then Char.ofNat (c.toNat + 32) else c

/-- The common weak password denylist of the source. -/
def commonPasswords : List String :=
  ["password", "123456", "admin", "password123", "qwerty"]

/-- The seven violation messages of validatePassword, in push order. -/
def pwMsgMin : String := "Le mot de passe doit contenir au moins 8 caractères"

/-- Message for the 128-character upper bound. -/
def pwMsgMax : String := "Le mot de passe ne peut pas dépasser 128 caractères"

/-- Message for the missing-lowercase rule. -/
def pwMsgLower : String := "Le mot de passe doit contenir au moins une minuscule"

/-- Message for the missing-uppercase rule. -/
def pwMsgUpper : String := "Le mot de passe doit contenir au moins une majuscule"

/-- Message for the missing-digit rule. -/
def pwMsgDigit : String := "Le mot de passe doit contenir au moins un chiffre"

/-- Message for the missing-special-character rule. -/
def pwMsgSpecial : String := "Le mot de passe doit contenir au moins un caractère spécial"

/-- Message for the common-password denylist rule. -/
def pwMsgCommon : String := "Ce mot de passe est trop commun"

/-- validatePassword from src/lib/security.ts: each rule pushes its
message independently, in source order, and validity is emptiness of the
collected list. -/
def validatePassword (password : String) : ValidationResult :=
  let errors : List String :=
    (if password.length < 8 then [pwMsgMin] else []) ++
    (if 128 < password.length then [pwMsgMax] else []) ++
    (if !(password.data.any (fun c => 97 ≤ c.toNat && c.toNat ≤ 122)) then [pwMsgLower] else []) ++
    (if !(password.data.any (fun c => 65 ≤ c.toNat && c.toNat ≤ 90)) then [pwMsgUpper] else []) ++
    (if !(password.data.any (fun c => 48 ≤ c.toNat && c.toNat ≤ 57)) then [pwMsgDigit] else []) ++
    (if !(password.data.any (fun c => passwordSpecialChars.contains c)) then [pwMsgSpecial] else []) ++
    (if commonPasswords.contains (String.mk (password.data.map asciiLower)) then [pwMsgCommon] else [])
  { isValid := errors.length == 0, errors := errors }

/-- Claim C9: every password shorter than 8 characters, and every
password longer than 128 characters, is reported invalid with the
corresponding length violation message present, whatever the rest of the
content. -/
theorem validatePassword_length_gate (p : String) :
    (p.length < 8 →
      (validatePassword p).isValid = false ∧ pwMsgMin ∈ (validatePassword p).errors) ∧
    (128 < p.length →
      (validatePassword p).isValid = false ∧ pwMsgMax ∈ (validatePassword p).errors) := by
  constructor
  · intro h
    simp only [validatePassword, if_pos h]
    constructor
    · simp
    · simp
  · intro h
    have h8 : ¬ (p.length < 8) := by omega
    simp only [validatePassword, if_neg h8, if_pos h]
    constructor
    · simp
    · simp

/-- Witness for claim C9: a 3-character password trips the minimum rule
and a 130-character password trips the maximum rule. -/
theorem validatePassword_length_gate_witness :
    ((validatePassword "aB1").isValid = false ∧
      pwMsgMin ∈ (validatePassword "aB1").errors) ∧
    ((validatePassword (String.mk (List.replicate 130 'a'))).isValid = false ∧
      pwMsgMax ∈ (validatePassword (String.mk (List.replicate 130 'a'))).errors) :=
  ⟨(validatePassword_length_gate "aB1").1 (by decide),
    (validatePassword_length_gate (String.mk (List.replicate 130 'a'))).2
      (by
        have h : (String.mk (List.replicate 130 'a')).length = 130 := by
          show (List.replicate 130 'a').length = 130
          rw [List.length_replicate]
        omega)⟩

/-!
## Rate limiter (checkRateLimit)

Source: src/lib/security.ts.  The process-wide mutable Map is modelled as
an association list threaded explicitly through each call; Map.get is
lookupEntry, Map.set is setEntry (replace the entry of the key if
present, else append).  Date.now() is the explicit now argument.  The
in-place count++ of the source is the setEntry with an incremented count.
-/

/-- One entry of the rate limit store: count and window reset time. -/
structure RateLimitEntry where
  count : Nat
  resetTime : Nat
deriving DecidableEq

/-- The rate limit store: key to entry. -/
abbrev RLStore := List (String × RateLimitEntry)

/-- Map.get of the store. -/
def lookupEntry (store : RLStore) (k : String) : Option RateLimitEntry :=
  (store.find? (fun p => p.1 == k)).map (fun p => p.2)

/-- Map.set of the store: replace the value under the key, else append. -/
def setEntry (store : RLStore) (k : String) (v : RateLimitEntry) : RLStore :=
  if store.any (fun p => p.1 == k) then
    store.map (fun p => if p.1 == k then (k, v) else p)
  else store ++ [(k, v)]

/-- checkRateLimit from src/lib/security.ts, with the store and the clock
made explicit: returns the allow decision and the updated store. -/
def checkRateLimit (store : RLStore) (now : Nat) (identifier : String)
    (maxAttempts : Nat) (windowMs : Nat) : Bool × RLStore :=
  match lookupEntry store identifier with
  | none => (true, setEntry store identifier ⟨1, now + windowMs⟩)
  | some data =>
    if data.resetTime < now then (true, setEntry store identifier ⟨1, now + windowMs⟩)
    else if maxAttempts ≤ data.count then (false, store)
    else (true, setEntry store identifier ⟨data.count + 1, data.resetTime⟩)

theorem find?_map_replace (s : RLStore) (k : String) (v : RateLimitEntry)
    (hpres : s.any (fun p => p.1 == k) = true) :
    (s.map (fun p => if p.1 == k then (k, v) else p)).find? (fun p => p.1 == k) =
      some (k, v) := by
  induction s with
  | nil => simp at hpres
  | cons hd tl ih =>
    by_cases hb : hd.1 == k
    · simp only [List.map_cons, if_pos hb]
      rw [List.find?_cons_of_pos _ (by simp)]
    · simp only [List.any_cons, Bool.or_eq_true] at hpres
      rcases hpres with h | h
      · exact absurd h hb
      · simp only [List.map_cons, if_neg hb]
        have hb2 : (hd.1 == k) = false := by simpa using hb
        rw [List.find?_cons, hb2]
        exact ih h

theorem find?_none_of_all_neg (s : RLStore) (k : String)
    (habs : s.any (fun p => p.1 == k) = false) :
    s.find? (fun p => p.1 == k) = none := by
  induction s with
  | nil => rfl
  | cons hd tl ih =>
    simp only [List.any_cons, Bool.or_eq_false_iff] at habs
    rw [List.find?_cons, habs.1]
    exact ih habs.2

theorem lookupEntry_setEntry_self (s : RLStore) (k : String) (v : RateLimitEntry) :
    lookupEntry (setEntry s k v) k = some v := by
  unfold setEntry
  by_cases hp : s.any (fun p => p.1 == k)
  · rw [if_pos hp]
    unfold lookupEntry
    rw [find?_map_replace s k v hp]
    rfl
  · rw [if_neg hp]
    unfold lookupEntry
    have hfn : s.find? (fun p => p.1 == k) = none :=
      find?_none_of_all_neg s k (by revert hp; cases s.any (fun p => p.1 == k) <;> simp)
    rw [List.find?_append, hfn]
    simp [List.find?]

/-- Claim C4: for a key with no live entry, with maxAttempts 5 and any
window length, five calls within the window succeed, the sixth fails and
leaves the entry (count 5, original reset time) untouched, and a call
after the reset time succeeds again with count 1 and a fresh reset time.
The seven call results are bound through the explicit equations e1 to e7. -/
theorem checkRateLimit_window (key : String) (w : Nat) (store : RLStore)
    (t1 t2 t3 t4 t5 t6 t7 : Nat) (r1 r2 r3 r4 r5 r6 r7 : Bool × RLStore)
    (h0 : lookupEntry store key = none)
    (e1 : r1 = checkRateLimit store t1 key 5 w)
    (e2 : r2 = checkRateLimit r1.2 t2 key 5 w)
    (e3 : r3 = checkRateLimit r2.2 t3 key 5 w)
    (e4 : r4 = checkRateLimit r3.2 t4 key 5 w)
    (e5 : r5 = checkRateLimit r4.2 t5 key 5 w)
    (e6 : r6 = checkRateLimit r5.2 t6 key 5 w)
    (e7 : r7 = checkRateLimit r6.2 t7 key 5 w)
    (h2 : t2 ≤ t1 + w) (h3 : t3 ≤ t1 + w) (h4 : t4 ≤ t1 + w)
    (h5 : t5 ≤ t1 + w) (h6 : t6 ≤ t1 + w) (h7 : t1 + w < t7) :
    r1.1 = true ∧ r2.1 = true ∧ r3.1 = true ∧ r4.1 = true ∧ r5.1 = true ∧
      lookupEntry r5.2 key = some ⟨5, t1 + w⟩ ∧
      r6.1 = false ∧ r6.2 = r5.2 ∧ lookupEntry r6.2 key = some ⟨5, t1 + w⟩ ∧
      r7.1 = true ∧ lookupEntry r7.2 key = some ⟨1, t7 + w⟩ := by
  have v1 : r1 = (true, setEntry store key ⟨1, t1 + w⟩) := by
    rw [e1, checkRateLimit, h0]
  have l1 : lookupEntry (setEntry store key ⟨1, t1 + w⟩) key = some ⟨1, t1 + w⟩ :=
    lookupEntry_setEntry_self store key _
  have v2 : r2 = (true, setEntry (setEntry store key ⟨1, t1 + w⟩) key ⟨2, t1 + w⟩) := by
    rw [e2, v1]
    show checkRateLimit (setEntry store key ⟨1, t1 + w⟩) t2 key 5 w = _
    rw [checkRateLimit, l1]
    simp only [if_neg (by omega : ¬ (t1 + w < t2)), if_neg (by omega : ¬ (5 ≤ 1))]
  have l2 := lookupEntry_setEntry_self (setEntry store key ⟨1, t1 + w⟩) key ⟨2, t1 + w⟩
  have v3 : r3 = (true, setEntry (setEntry (setEntry store key ⟨1, t1 + w⟩) key ⟨2, t1 + w⟩)
      key ⟨3, t1 + w⟩) := by
    rw [e3, v2]
    show checkRateLimit (setEntry (setEntry store key ⟨1, t1 + w⟩) key ⟨2, t1 + w⟩)
      t3 key 5 w = _
    rw [checkRateLimit, l2]
    simp only [if_neg (by omega : ¬ (t1 + w < t3)), if_neg (by omega : ¬ (5 ≤ 2))]
  have l3 := lookupEntry_setEntry_self
    (setEntry (setEntry store key ⟨1, t1 + w⟩) key ⟨2, t1 + w⟩) key ⟨3, t1 + w⟩
  have v4 : r4 = (true, setEntry (setEntry (setEntry (setEntry store key ⟨1, t1 + w⟩)
      key ⟨2, t1 + w⟩) key ⟨3, t1 + w⟩) key ⟨4, t1 + w⟩) := by
    rw [e4, v3]
    show checkRateLimit (setEntry (setEntry (setEntry store key ⟨1, t1 + w⟩)
      key ⟨2, t1 + w⟩) key ⟨3, t1 + w⟩) t4 key 5 w = _
    rw [checkRateLimit, l3]
    simp only [if_neg (by omega : ¬ (t1 + w < t4)), if_neg (by omega : ¬ (5 ≤ 3))]
  have l4 := lookupEntry_setEntry_self (setEntry (setEntry (setEntry store key ⟨1, t1 + w⟩)
    key ⟨2, t1 + w⟩) key ⟨3, t1 + w⟩) key ⟨4, t1 + w⟩
  have v5 : r5 = (true, setEntry (setEntry (setEntry (setEntry (setEntry store key
      ⟨1, t1 + w⟩) key ⟨2, t1 + w⟩) key ⟨3, t1 + w⟩) key ⟨4, t1 + w⟩) key ⟨5, t1 + w⟩) := by
    rw [e5, v4]
    show checkRateLimit (setEntry (setEntry (setEntry (setEntry store key ⟨1, t1 + w⟩)
      key ⟨2, t1 + w⟩) key ⟨3, t1 + w⟩) key ⟨4, t1 + w⟩) t5 key 5 w = _
    rw [checkRateLimit, l4]
    simp only [if_neg (by omega : ¬ (t1 + w < t5)), if_neg (by omega : ¬ (5 ≤ 4))]
  have l5 := lookupEntry_setEntry_self (setEntry (setEntry (setEntry (setEntry store key
    ⟨1, t1 + w⟩) key ⟨2, t1 + w⟩) key ⟨3, t1 + w⟩) key ⟨4, t1 + w⟩) key ⟨5, t1 + w⟩
  have v6 : r6 = (false, setEntry (setEntry (setEntry (setEntry (setEntry store key
      ⟨1, t1 + w⟩) key ⟨2, t1 + w⟩) key ⟨3, t1 + w⟩) key ⟨4, t1 + w⟩) key ⟨5, t1 + w⟩) := by
    rw [e6, v5]
    show checkRateLimit (setEntry (setEntry (setEntry (setEntry (setEntry store key
      ⟨1, t1 + w⟩) key ⟨2, t1 + w⟩) key ⟨3, t1 + w⟩) key ⟨4, t1 + w⟩) key ⟨5, t1 + w⟩)
      t6 key 5 w = _
    rw [checkRateLimit, l5]
    simp only [if_neg (by omega : ¬ (t1 + w < t6)), if_pos (by omega : 5 ≤ 5)]
  have v7 : r7 = (true, setEntry (setEntry (setEntry (setEntry (setEntry (setEntry store
      key ⟨1, t1 + w⟩) key ⟨2, t1 + w⟩) key ⟨3, t1 + w⟩) key ⟨4, t1 + w⟩) key ⟨5, t1 + w⟩)
      key ⟨1, t7 + w⟩) := by
    rw [e7, v6]
    show checkRateLimit (setEntry (setEntry (setEntry (setEntry (setEntry store key
      ⟨1, t1 + w⟩) key ⟨2, t1 + w⟩) key ⟨3, t1 + w⟩) key ⟨4, t1 + w⟩) key ⟨5, t1 + w⟩)
      t7 key 5 w = _
    rw [checkRateLimit, l5]
    simp only [if_pos (by omega : t1 + w < t7)]
  have l7 := lookupEntry_setEntry_self (setEntry (setEntry (setEntry (setEntry (setEntry
    store key ⟨1, t1 + w⟩) key ⟨2, t1 + w⟩) key ⟨3, t1 + w⟩) key ⟨4, t1 + w⟩) key
    ⟨5, t1 + w⟩) key ⟨1, t7 + w⟩
  exact ⟨by rw [v1], by rw [v2], by rw [v3], by rw [v4], by rw [v5], by rw [v5]; exact l5,
    by rw [v6], by rw [v6, v5], by rw [v6]; exact l5, by rw [v7], by rw [v7]; exact l7⟩

/-- Concrete rate limiter run, call 1 on an empty store. -/
def rlW1 : Bool × RLStore := checkRateLimit [] 0 "k" 5 1000

/-- Concrete run, call 2. -/
def rlW2 : Bool × RLStore := checkRateLimit rlW1.2 1 "k" 5 1000

/-- Concrete run, call 3. -/
def rlW3 : Bool × RLStore := checkRateLimit rlW2.2 2 "k" 5 1000

/-- Concrete run, call 4. -/
def rlW4 : Bool × RLStore := checkRateLimit rlW3.2 3 "k" 5 1000

/-- Concrete run, call 5. -/
def rlW5 : Bool × RLStore := checkRateLimit rlW4.2 4 "k" 5 1000

/-- Concrete run, call 6, still inside the window. -/
def rlW6 : Bool × RLStore := checkRateLimit rlW5.2 5 "k" 5 1000

/-- Concrete run, call 7, after the window reset time. -/
def rlW7 : Bool × RLStore := checkRateLimit rlW6.2 1001 "k" 5 1000

/-- Witness for claim C4 on a concrete seven-call run. -/
theorem checkRateLimit_window_witness :
    rlW1.1 = true ∧ rlW2.1 = true ∧ rlW3.1 = true ∧ rlW4.1 = true ∧ rlW5.1 = true ∧
      lookupEntry rlW5.2 "k" = some ⟨5, 0 + 1000⟩ ∧
      rlW6.1 = false ∧ rlW6.2 = rlW5.2 ∧ lookupEntry rlW6.2 "k" = some ⟨5, 0 + 1000⟩ ∧
      rlW7.1 = true ∧ lookupEntry rlW7.2 "k" = some ⟨1, 1001 + 1000⟩ :=
  checkRateLimit_window "k" 1000 [] 0 1 2 3 4 5 1001 rlW1 rlW2 rlW3 rlW4 rlW5 rlW6 rlW7
    rfl rfl rfl rfl rfl rfl rfl rfl (by omega) (by omega) (by omega) (by omega) (by omega)
    (by omega)

/-!
## Error mapper (mapErrorMessage)

Source: src/lib/error-messages.ts.  The input is a string, an object with
an optional message field, or null or undefined; the falsy guard of the
source catches null, undefined, a missing message field and the empty
string.  The French result strings that contain an apostrophe are spliced
with a one-character apostrophe string.
-/

/-- One-character apostrophe string, for splicing into French text. -/
def apoS : String := ⟨[apoC]⟩

/-- The possible inputs of mapErrorMessage: a plain string, an object
with an optional message field, or null or undefined. -/
inductive AuthErrorInput where
  | str (s : String)
  | obj (message : Option String)
  | nullish

/-- Substring containment test, as JavaScript String.includes. -/
def includesList (pat : List Char) : List Char → Bool
  | [] => pat.isEmpty
  | c :: rest => pat.isPrefixOf (c :: rest) || includesList pat rest

/-- String.includes of the source. -/
def strIncludes (s pat : String) : Bool := includesList pat.data s.data

/-- The unknown-error string returned on a falsy message. -/
def unknownErrorMsg : String := "Une erreur inconnue est survenue."

/-- The generic fallback returned when nothing matches. -/
def genericFallbackMsg : String := "Une erreur est survenue. Veuillez réessayer."

/-- mapErrorMessage from src/lib/error-messages.ts.  The server-side
console.warn of the fallback branch is a log side effect outside the
returned value and is not modelled. -/
def mapErrorMessage (error : AuthErrorInput) : String :=
  let message : Option String :=
    match error with
    | .str s => some s
    | .obj m => m
    | .nullish => none
  match message with
  | none => unknownErrorMsg
  | some m =>
    if m = "" then unknownErrorMsg
    else if m = "Invalid email or password" ∨ m = "Invalid credentials" then
      "Email ou mot de passe incorrect."
    else if m = "Email not verified" then
      "Veuillez vérifier votre adresse email avant de vous connecter."
    else if m = "Account banned" then "Ce compte est banni."
    else if m = "User not found" then "Utilisateur introuvable."
    else if m = "Email already exists" ∨ m = "Sign-up attempt for existing email" then
      "Cet email est déjà utilisé. Connectez-vous ou vérifiez vos emails."
    else if m = "Username already exists" then
      "Ce nom d" ++ apoS ++ "utilisateur est déjà pris. Choisissez-en un autre."
    else if m = "Password too short" then "Mot de passe trop court (minimum 8 caractères)."
    else if m = "Invalid email" then "Adresse email invalide."
    else if m = "Missing required field" then "Un champ requis est manquant."
    else if m = "Invalid OTP" ∨ m = "Invalid verification code" then
      "Code de vérification invalide."
    else if m = "OTP expired" ∨ m = "Verification code expired" then
      "Code de vérification expiré. Demandez un nouveau code."
    else if m = "Too many OTP attempts" then
      "Trop de tentatives. Veuillez patienter avant de réessayer."
    else if m = "You can only send a verification email to an unverified email" then
      "Impossible de renvoyer l" ++ apoS ++ "email : cette adresse est déjà vérifiée ou n"
        ++ apoS ++ "existe pas."
    else if m = "Password reset token expired" then
      "Le lien de réinitialisation a expiré. Demandez un nouveau lien."
    else if m = "Invalid password reset token" then "Lien de réinitialisation invalide."
    else if strIncludes m "rate limit" || strIncludes m "too many requests" then
      "Trop de tentatives. Veuillez patienter quelques minutes."
    else if strIncludes m "network" || strIncludes m "fetch" then
      "Erreur de connexion. Vérifiez votre connexion internet."
    else if strIncludes m "server" || strIncludes m "500" then
      "Erreur serveur temporaire. Veuillez réessayer dans quelques instants."
    else if m = "Organization not found" then "Organisation introuvable."
    else if m = "Organization already exists" then "Cette organisation existe déjà."
    else if m = "Invalid invitation" then "Invitation invalide ou expirée."
    else if m = "User already in organization" then
      "Vous êtes déjà membre de cette organisation."
    else genericFallbackMsg

/-- The exact-match keys of the mapping table, in source order. -/
def exactErrorKeys : List String :=
  ["Invalid email or password", "Invalid credentials", "Email not verified",
   "Account banned", "User not found", "Email already exists",
   "Sign-up attempt for existing email", "Username already exists",
   "Password too short", "Invalid email", "Missing required field",
   "Invalid OTP", "Invalid verification code", "OTP expired",
   "Verification code expired", "Too many OTP attempts",
   "You can only send a verification email to an unverified email",
   "Password reset token expired", "Invalid password reset token",
   "Organization not found", "Organization already exists",
   "Invalid invitation", "User already in organization"]

/-- The keyword substrings of the mapping table. -/
def keywordErrorKeys : List String :=
  ["rate limit", "too many requests", "network", "fetch", "server", "500"]

/-- Counterexample to claim C3: a null input and an unmatched nonempty
string input both fall through the table, yet they produce two different
strings, so there is no single fallback string covering null as well. -/
theorem mapErrorMessage_null_differs :
    mapErrorMessage .nullish = unknownErrorMsg ∧
      mapErrorMessage (.str "Some unknown error message") = genericFallbackMsg ∧
      unknownErrorMsg ≠ genericFallbackMsg := by
  refine ⟨rfl, by decide, by decide⟩

/-- Claim C3 as amended: mapErrorMessage is total; null, undefined, a
missing message field and the empty message return the fixed
unknown-error string, while every nonempty message matching no exact key
and containing no keyword substring returns the single fixed generic
fallback string. -/
theorem mapErrorMessage_fallback (s : String) (hne : s ≠ "")
    (hexact : s ∉ exactErrorKeys)
    (hkw : ∀ k ∈ keywordErrorKeys, strIncludes s k = false) :
    mapErrorMessage (.str s) = genericFallbackMsg ∧
      mapErrorMessage (.obj (some s)) = genericFallbackMsg ∧
      mapErrorMessage .nullish = unknownErrorMsg ∧
      mapErrorMessage (.obj none) = unknownErrorMsg ∧
      mapErrorMessage (.str "") = unknownErrorMsg ∧
      mapErrorMessage (.obj (some "")) = unknownErrorMsg := by
  simp only [exactErrorKeys, List.mem_cons, List.not_mem_nil, or_false] at hexact
  push_neg at hexact
  obtain ⟨n1, n2, n3, n4, n5, n6, n7, n8, n9, n10, n11, n12, n13, n14, n15, n16, n17,
    n18, n19, n20, n21, n22, n23⟩ := hexact
  have w1 := hkw "rate limit" (by simp [keywordErrorKeys])
  have w2 := hkw "too many requests" (by simp [keywordErrorKeys])
  have w3 := hkw "network" (by simp [keywordErrorKeys])
  have w4 := hkw "fetch" (by simp [keywordErrorKeys])
  have w5 := hkw "server" (by simp [keywordErrorKeys])
  have w6 := hkw "500" (by simp [keywordErrorKeys])
  refine ⟨?_, ?_, rfl, rfl, by decide, by decide⟩ <;>
    simp [mapErrorMessage, hne, n1, n2, n3, n4, n5, n6, n7, n8, n9, n10, n11, n12, n13,
      n14, n15, n16, n17, n18, n19, n20, n21, n22, n23, w1, w2, w3, w4, w5, w6]

/-- Witness for the amended claim C3 at a concrete unmatched message. -/
theorem mapErrorMessage_fallback_witness :
    mapErrorMessage (.str "Some unknown error message") = genericFallbackMsg ∧
      mapErrorMessage .nullish = unknownErrorMsg ∧
      mapErrorMessage (.str "") = unknownErrorMsg :=
  ⟨(mapErrorMessage_fallback "Some unknown error message" (by decide) (by decide)
      (by decide)).1,
    (mapErrorMessage_fallback "Some unknown error message" (by decide) (by decide)
      (by decide)).2.2.1,
    (mapErrorMessage_fallback "Some unknown error message" (by decide) (by decide)
      (by decide)).2.2.2.2.1⟩

/-!
## Request gate middleware (onRequest)

Source: src/middleware/auth.ts, the version that injects security
headers.  The session lookup and the downstream next() handler are inputs
of the model: SessionOutcome is the outcome of auth.api.getSession
(either a resolved optional user, or a thrown error caught by the catch
block), and nextResp is the Response produced by next().  next() always
returns a Response in this host, so the instanceof guard of the source is
always taken.  process.env.NODE_ENV is the isProd flag.
-/

/-- The user fields the middleware reads: only the optional role tag. -/
structure User where
  role : Option String
deriving DecidableEq

/-- An HTTP response: status, header list, optional body. -/
structure Resp where
  status : Nat
  headers : List (String × String)
  body : Option String
deriving DecidableEq

/-- Outcome of the session lookup: a resolved optional user, or a thrown
internal error (caught by the catch block of the source). -/
inductive SessionOutcome where
  | ok (user : Option User)
  | err

/-- The private path list of the source. -/
def PRIVATE_PATHS : List String :=
  ["/dashboard", "/profil", "/profile", "/account", "/admin", "/organisations",
   "/settings", "/api/admin", "/api/user"]

/-- The admin-only path list of the source. -/
def ADMIN_PATHS : List String := ["/admin", "/api/admin"]

/-- The public auth page list of the source. -/
def AUTH_PATHS : List String := ["/connexion", "/inscription", "/mot-de-passe-oublie"]

/-- JavaScript String.startsWith. -/
def startsWithStr (s p : String) : Bool := p.data.isPrefixOf s.data

/-- Hexadecimal digit in upper case, as produced by encodeURIComponent. -/
def hexDigitC (n : Nat) : Char :=
  if n < 10 then Char.ofNat (48 + n) else Char.ofNat (55 + n)

/-- Percent-encoding of one byte. -/
def percentEncodeByte (b : Nat) : List Char :=
  ['%', hexDigitC (b / 16), hexDigitC (b % 16)]

/-- Percent-encoding of a byte sequence. -/
def percentEncodeBytes : List Nat → List Char
  | [] => []
  | b :: rest => percentEncodeByte b ++ percentEncodeBytes rest

/-- UTF-8 bytes of one character. -/
def utf8Bytes (c : Char) : List Nat :=
  let n := c.toNat
  if n < 128 then [n]
  else if n < 2048 then [192 + n / 64, 128 + n % 64]
  else if n < 65536 then [224 + n / 4096, 128 + (n / 64) % 64, 128 + n % 64]
  else [240 + n / 262144, 128 + (n / 4096) % 64, 128 + (n / 64) % 64, 128 + n % 64]

/-- The characters encodeURIComponent leaves unescaped: letters, digits,
and - _ . ! ~ * apostrophe ( ). -/
def unreservedURIChar (c : Char) : Bool :=
  alnumB c || ['-', '_', '.', '!', '~', '*', apoC, '(', ')'].contains c

/-- encodeURIComponent on a character list. -/
def encodeURIComponentList : List Char → List Char
  | [] => []
  | c :: rest =>
    (if unreservedURIChar c then [c] else percentEncodeBytes (utf8Bytes c)) ++
      encodeURIComponentList rest

/-- JavaScript encodeURIComponent. -/
def encodeURIComponent (s : String) : String := ⟨encodeURIComponentList s.data⟩

/-- Header lookup, the observable view of a Headers object. -/
def getHeader (h : List (String × String)) (name : String) : Option String :=
  (h.find? (fun p => p.1 == name)).map (fun p => p.2)

/-- Headers.set: replace the value under an existing name, else append. -/
def setHeader (h : List (String × String)) (name value : String) :
    List (String × String) :=
  if h.any (fun p => p.1 == name) then
    h.map (fun p => if p.1 == name then (name, value) else p)
  else h ++ [(name, value)]

/-- The Content-Security-Policy value of the source, apostrophes spliced. -/
def cspValue : String :=
  "default-src " ++ apoS ++ "self" ++ apoS ++ "; script-src " ++ apoS ++ "self" ++ apoS
    ++ " " ++ apoS ++ "unsafe-inline" ++ apoS ++ " " ++ apoS ++ "unsafe-eval" ++ apoS
    ++ "; style-src " ++ apoS ++ "self" ++ apoS ++ " " ++ apoS ++ "unsafe-inline" ++ apoS
    ++ "; img-src " ++ apoS ++ "self" ++ apoS ++ " data: https:; font-src " ++ apoS
    ++ "self" ++ apoS ++ "; connect-src " ++ apoS ++ "self" ++ apoS
    ++ "; frame-ancestors " ++ apoS ++ "none" ++ apoS ++ ";"

/-- The frame-ancestors directive the policy must contain. -/
def frameAncestorsNone : String := "frame-ancestors " ++ apoS ++ "none" ++ apoS ++ ";"

/-- The five unconditional security header set calls of the source, in
source order. -/
def baseSecurityHeaders (h : List (String × String)) : List (String × String) :=
  setHeader
    (setHeader
      (setHeader
        (setHeader (setHeader h "X-Frame-Options" "DENY") "X-Content-Type-Options"
          "nosniff")
        "Referrer-Policy" "strict-origin-when-cross-origin")
      "X-XSS-Protection" "1; mode=block")
    "Content-Security-Policy" cspValue

/-- All security header set calls, with the HSTS header only in
production configuration. -/
def securityHeadersSet (isProd : Bool) (h : List (String × String)) :
    List (String × String) :=
  if isProd then
    setHeader (baseSecurityHeaders h) "Strict-Transport-Security"
      "max-age=31536000; includeSubDomains; preload"
  else baseSecurityHeaders h

/-- The role of the resolved user, undefined when no user resolved. -/
def roleOf : Option User → Option String
  | none => none
  | some u => u.role

/-- Admin path test of the source. -/
def isAdminPath (path : String) : Bool := ADMIN_PATHS.any (fun p => startsWithStr path p)

/-- Private path test of the source. -/
def isPrivatePath (path : String) : Bool :=
  PRIVATE_PATHS.any (fun p => startsWithStr path p)

/-- A 302 redirect response as built by the source. -/
def redirectResp (loc : String) : Resp :=
  { status := 302, headers := [("Location", loc)], body := none }

/-- The inner branch structure of the middleware (the async closure of
the source): auth page redirect for signed-in users, admin gating,
private page gating, else pass through to next(). -/
def innerResponse (user : Option User) (path : String) (nextResp : Resp) : Resp :=
  if AUTH_PATHS.contains path && user.isSome then
    redirectResp "/dashboard"
  else if isAdminPath path && user.isNone then
    redirectResp ("/connexion?redirect=" ++ encodeURIComponent path)
  else if isAdminPath path && (roleOf user != some "admin") then
    { status := 403, headers := [("Content-Type", "text/html")], body := none }
  else if isPrivatePath path && user.isNone then
    redirectResp ("/connexion?redirect=" ++ encodeURIComponent path)
  else nextResp

/-- onRequest from src/middleware/auth.ts: on a session lookup error the
catch block returns a bare 500; otherwise the inner response is computed
and the security headers are set on it before returning. -/
def onRequest (isProd : Bool) (sess : SessionOutcome) (path : String) (nextResp : Resp) :
    Resp :=
  match sess with
  | .err => { status := 500, headers := [("Content-Type", "text/html")], body := none }
  | .ok user =>
    let response := innerResponse user path nextResp
    { response with headers := securityHeadersSet isProd response.headers }

/-- A concrete downstream next() response used by concrete evaluations. -/
def testNext : Resp :=
  { status := 200, headers := [("Content-Type", "text/html")], body := some "page" }

theorem find?_map_replace_ne (l : List (String × String)) (n v n' : String)
    (hne : (n == n') = false) :
    (l.map (fun p => if p.1 == n then (n, v) else p)).find? (fun p => p.1 == n') =
      l.find? (fun p => p.1 == n') := by
  induction l with
  | nil => rfl
  | cons hd tl ih =>
    by_cases hb : hd.1 == n
    · have h1 : hd.1 = n := eq_of_beq hb
      simp only [List.map_cons, if_pos hb]
      rw [List.find?_cons, List.find?_cons, hne, h1, hne]
      exact ih
    · simp only [List.map_cons, if_neg hb]
      by_cases hb2 : (hd.1 == n') = true
      · rw [List.find?_cons, List.find?_cons, hb2]
      · have hb2f : (hd.1 == n') = false := by revert hb2; cases hd.1 == n' <;> simp
        rw [List.find?_cons, List.find?_cons, hb2f]
        exact ih

theorem getHeader_setHeader_ne (h : List (String × String)) (n v n' : String)
    (hne : n' ≠ n) :
    getHeader (setHeader h n v) n' = getHeader h n' := by
  have hnn : (n == n') = false := beq_eq_false_iff_ne.mpr (fun hh => hne hh.symm)
  unfold setHeader
  by_cases hp : h.any (fun p => p.1 == n)
  · rw [if_pos hp]
    unfold getHeader
    rw [find?_map_replace_ne h n v n' hnn]
  · rw [if_neg hp]
    unfold getHeader
    rw [List.find?_append]
    cases ho : h.find? (fun p => p.1 == n') with
    | none => simp [ho, List.find?, hnn]
    | some x => simp [ho]

theorem getHeader_security_other (isProd : Bool) (h : List (String × String))
    (n' : String)
    (d1 : n' ≠ "X-Frame-Options") (d2 : n' ≠ "X-Content-Type-Options")
    (d3 : n' ≠ "Referrer-Policy") (d4 : n' ≠ "X-XSS-Protection")
    (d5 : n' ≠ "Content-Security-Policy") (d6 : n' ≠ "Strict-Transport-Security") :
    getHeader (securityHeadersSet isProd h) n' = getHeader h n' := by
  cases isProd with
  | false =>
    show getHeader (baseSecurityHeaders h) n' = getHeader h n'
    unfold baseSecurityHeaders
    rw [getHeader_setHeader_ne _ _ _ _ d5, getHeader_setHeader_ne _ _ _ _ d4,
      getHeader_setHeader_ne _ _ _ _ d3, getHeader_setHeader_ne _ _ _ _ d2,
      getHeader_setHeader_ne _ _ _ _ d1]
  | true =>
    show getHeader (setHeader (baseSecurityHeaders h) _ _) n' = getHeader h n'
    rw [getHeader_setHeader_ne _ _ _ _ d6]
    unfold baseSecurityHeaders
    rw [getHeader_setHeader_ne _ _ _ _ d5, getHeader_setHeader_ne _ _ _ _ d4,
      getHeader_setHeader_ne _ _ _ _ d3, getHeader_setHeader_ne _ _ _ _ d2,
      getHeader_setHeader_ne _ _ _ _ d1]

theorem getHeader_security_Location (isProd : Bool) (h : List (String × String)) :
    getHeader (securityHeadersSet isProd h) "Location" = getHeader h "Location" :=
  getHeader_security_other isProd h "Location" (by decide) (by decide) (by decide)
    (by decide) (by decide) (by decide)

theorem getHeader_redirect_Location (loc : String) :
    getHeader [("Location", loc)] "Location" = some loc := by
  unfold getHeader
  rw [List.find?_cons]
  simp

/-- Claim C2: on every admin-prefixed path, the gate redirects an
unauthenticated request to the sign-in page with the original path in the
redirect query parameter, answers 403 with an empty body for a non-admin
user, and passes an admin user through to the next handler (with the
security headers set on the way out). -/
theorem onRequest_admin_gate (isProd : Bool) (user : Option User) (path : String)
    (nextResp : Resp)
    (hadmin : startsWithStr path "/admin" = true ∨ startsWithStr path "/api/admin" = true) :
    (user = none →
      (onRequest isProd (.ok user) path nextResp).status = 302 ∧
        getHeader (onRequest isProd (.ok user) path nextResp).headers "Location" =
          some ("/connexion?redirect=" ++ encodeURIComponent path)) ∧
    (∀ u : User, user = some u → u.role ≠ some "admin" →
      (onRequest isProd (.ok user) path nextResp).status = 403 ∧
        (onRequest isProd (.ok user) path nextResp).body = none) ∧
    (∀ u : User, user = some u → u.role = some "admin" →
      onRequest isProd (.ok user) path nextResp =
        { nextResp with headers := securityHeadersSet isProd nextResp.headers }) := by
  have hnmem : path ∉ AUTH_PATHS := by
    intro hmem
    simp only [AUTH_PATHS, List.mem_cons, List.not_mem_nil, or_false] at hmem
    rcases hmem with rfl | rfl | rfl <;> rcases hadmin with h | h <;> revert h <;> decide
  have hAuth : AUTH_PATHS.contains path = false := by
    cases hcc : AUTH_PATHS.contains path
    · rfl
    · exact absurd (List.elem_iff.mp hcc) hnmem
  have hA : isAdminPath path = true := by
    rcases hadmin with h | h <;> simp [isAdminPath, ADMIN_PATHS, h]
  refine ⟨?_, ?_, ?_⟩
  · intro hu; subst hu
    have hI : innerResponse none path nextResp =
        redirectResp ("/connexion?redirect=" ++ encodeURIComponent path) := by
      simp [innerResponse, hAuth, hA]
    constructor
    · simp only [onRequest, hI, redirectResp]
    · simp only [onRequest, hI, redirectResp]
      rw [getHeader_security_Location, getHeader_redirect_Location]
  · intro u hu hrole; subst hu
    have hrole2 : (roleOf (some u) != some "admin") = true := by
      simp [roleOf, bne_iff_ne, hrole]
    have hI : innerResponse (some u) path nextResp =
        { status := 403, headers := [("Content-Type", "text/html")], body := none } := by
      simp [innerResponse, hAuth, hnmem, hA, hrole2]
    constructor
    · simp only [onRequest, hI]
    · simp only [onRequest, hI]
  · intro u hu hrole; subst hu
    have hrole2 : (roleOf (some u) != some "admin") = false := by
      simp [roleOf, hrole]
    have hI : innerResponse (some u) path nextResp = nextResp := by
      simp [innerResponse, hAuth, hnmem, hrole2]
    simp only [onRequest, hI]

/-- Witness for claim C2 on the admin root path: an unauthenticated
request is redirected with the encoded path, a non-admin user receives
403. -/
theorem onRequest_admin_gate_witness :
    ((onRequest false (.ok none) "/admin" testNext).status = 302 ∧
      getHeader (onRequest false (.ok none) "/admin" testNext).headers "Location" =
        some ("/connexion?redirect=" ++ encodeURIComponent "/admin")) ∧
    (onRequest false (.ok (some ⟨some "user"⟩)) "/admin" testNext).status = 403 :=
  ⟨(onRequest_admin_gate false none "/admin" testNext (Or.inl (by decide))).1 rfl,
    ((onRequest_admin_gate false (some ⟨some "user"⟩) "/admin" testNext
        (Or.inl (by decide))).2.1 ⟨some "user"⟩ rfl (by decide)).1⟩

/-- Counterexample to claim C5: the source compares the path to the auth
page list with exact equality (Array.includes), not as a path prefix, so
a signed-in user requesting a longer path that merely begins with an auth
page gets the downstream page (status 200 here), not the 302 redirect the
claim requires. -/
theorem onRequest_auth_prefix_counterexample :
    startsWithStr "/connexion/profil" "/connexion" = true ∧
      (onRequest false (.ok (some ⟨some "user"⟩)) "/connexion/profil" testNext).status
        = 200 := by
  constructor
  · decide
  · decide

/-- Claim C5 as amended: only when the request path is exactly one of the
three auth page paths is a signed-in user redirected (302) to the
authenticated landing page /dashboard. -/
theorem onRequest_auth_exact_redirect (isProd : Bool) (u : User) (path : String)
    (nextResp : Resp) (hpath : AUTH_PATHS.contains path = true) :
    (onRequest isProd (.ok (some u)) path nextResp).status = 302 ∧
      getHeader (onRequest isProd (.ok (some u)) path nextResp).headers "Location" =
        some "/dashboard" := by
  have hmem : path ∈ AUTH_PATHS := List.elem_iff.mp hpath
  have hI : innerResponse (some u) path nextResp = redirectResp "/dashboard" := by
    simp [innerResponse, hpath, hmem]
  constructor
  · simp only [onRequest, hI, redirectResp]
  · simp only [onRequest, hI, redirectResp]
    rw [getHeader_security_Location, getHeader_redirect_Location]

/-- Witness for the amended claim C5 at the exact sign-in path. -/
theorem onRequest_auth_exact_redirect_witness :
    (onRequest false (.ok (some ⟨none⟩)) "/connexion" testNext).status = 302 ∧
      getHeader (onRequest false (.ok (some ⟨none⟩)) "/connexion" testNext).headers
        "Location" = some "/dashboard" :=
  onRequest_auth_exact_redirect false ⟨none⟩ "/connexion" testNext (by decide)

/-- Claim C1 (code evaluation at the failing input): when the session
lookup throws, the catch block returns the generic 500 without any of the
security headers, so the fixed security headers are not on every branch.
The inner 302 and 403 branches do receive them (see the C2 theorem); the
catch branch is the exception. -/
theorem onRequest_err_missing_security_headers :
    (onRequest false .err "/admin" testNext).status = 500 ∧
      getHeader (onRequest false .err "/admin" testNext).headers "X-Frame-Options"
        = none ∧
      getHeader (onRequest false .err "/admin" testNext).headers
        "Content-Security-Policy" = none ∧
      (onRequest false .err "/admin" testNext).headers = [("Content-Type", "text/html")]
    := by
  refine ⟨rfl, by decide, by decide, rfl⟩
